import Mathlib

/-!
Verification development for the py-time-machine backup engine
(src/py-time-machine.py). The stateful parts of the program are shallowly
embedded: Python `datetime.datetime` values are records of calendar fields,
compared and subtracted through `dtSec` (seconds since 0001-01-01 00:00:00 in
the proleptic Gregorian calendar, matching CPython's `toordinal`); snapshot
lists are `List (DateTime × String)` pairs of timestamp and directory path;
filesystem effects of `_take_snapshot` are modelled by explicit state on the
`latest` pointer entry. Machine integers are Nat/Int; the float division in
`_check_freespace` (`bavail * bsize / ONEM`) is modelled over ℚ, where
division by the power of two 1048576 is exact.
-/

/-- Gregorian leap-year rule, as used by Python's `datetime` module. -/
def isLeap (y : Nat) : Prop := (y % 4 = 0 ∧ y % 100 ≠ 0) ∨ y % 400 = 0

instance (y : Nat) : Decidable (isLeap y) := by unfold isLeap; infer_instance

/-- One when the year is leap, zero otherwise. -/
def leapBit (y : Nat) : Nat := if isLeap y then 1 else 0

/-- Days in month `m` of year `y` (CPython `_days_in_month`). -/
def daysInMonth (y m : Nat) : Nat :=
  match m with
  | 2 => 28 + leapBit y
  | 4 | 6 | 9 | 11 => 30
  | _ => 31

/-- Cumulative days before month `m` in a non-leap year (CPython
`_DAYS_BEFORE_MONTH`, extended with the 365 entry for month 13). -/
def dbmBase (m : Nat) : Nat :=
  match m with
  | 1 => 0 | 2 => 31 | 3 => 59 | 4 => 90 | 5 => 120 | 6 => 151
  | 7 => 181 | 8 => 212 | 9 => 243 | 10 => 273 | 11 => 304 | 12 => 334
  | 13 => 365
  | _ => 0

/-- Days before month `m` of year `y` (CPython `_days_before_month`). -/
def dbm (y m : Nat) : Nat := dbmBase m + (if 2 < m then leapBit y else 0)

/-- Days before January 1 of year `y` (CPython `_days_before_year`). -/
def dby (y : Nat) : Nat :=
  match y with
  | 0 => 0
  | yp + 1 => 365 * yp + yp / 4 - yp / 100 + yp / 400

/-- Length of year `y` in days. -/
def daysInYear (y : Nat) : Nat := 365 + leapBit y

/-- Proleptic Gregorian ordinal of a date; `toOrdinal 1 1 1 = 1`, matching
CPython `date.toordinal`. -/
def toOrdinal (y m d : Nat) : Nat := dby y + dbm y m + d

/-- A Python `datetime.datetime` value: year, month, day, hour, minute,
second (microseconds are always zero in this program's timestamps). -/
structure DateTime where
  y : Nat
  m : Nat
  d : Nat
  hh : Nat
  mi : Nat
  ss : Nat
deriving DecidableEq

/-- Seconds since 0001-01-01 00:00:00. For valid datetimes this is an order
embedding of Python's `datetime` comparison, and subtracting a
`timedelta` corresponds to subtracting its seconds. -/
def dtSec (t : DateTime) : Int :=
  86400 * (toOrdinal t.y t.m t.d : Int) + 3600 * t.hh + 60 * t.mi + t.ss

/-- The datetimes that Python's constructor accepts (year at least 1, fields
in range); `datetime.strptime` only ever produces such values. -/
def ValidDT (t : DateTime) : Prop :=
  1 ≤ t.y ∧ 1 ≤ t.m ∧ t.m ≤ 12 ∧ 1 ≤ t.d ∧ t.d ≤ daysInMonth t.y t.m ∧
    t.hh < 24 ∧ t.mi < 60 ∧ t.ss < 60

instance (t : DateTime) : Decidable (ValidDT t) := by unfold ValidDT; infer_instance

/-- Python `date.weekday()` on a day ordinal: 0 = Monday … 6 = Sunday
(`(toordinal + 6) % 7`). -/
def weekdayOf (o : Int) : Int := (o + 6) % 7

/-- A discovered snapshot: its parsed timestamp and its directory path, as
built by `_find_snapshots`. -/
abbrev Snap := DateTime × String

/-- The order Python's `list.sort()` uses on `(datetime, path)` tuples:
lexicographic, timestamps first. -/
def snapLE (a b : Snap) : Prop :=
  dtSec a.1 < dtSec b.1 ∨ (dtSec a.1 = dtSec b.1 ∧ a.2 ≤ b.2)

instance : DecidableRel snapLE := fun a b => by unfold snapLE; infer_instance

instance : IsTotal Snap snapLE where
  total a b := by
    unfold snapLE
    rcases lt_trichotomy (dtSec a.1) (dtSec b.1) with h | h | h
    · exact Or.inl (Or.inl h)
    · rcases le_total a.2 b.2 with h2 | h2
      · exact Or.inl (Or.inr ⟨h, h2⟩)
      · exact Or.inr (Or.inr ⟨h.symm, h2⟩)
    · exact Or.inr (Or.inl h)

instance : IsTrans Snap snapLE where
  trans a b c hab hbc := by
    unfold snapLE at *
    rcases hab with h1 | ⟨h1, h1s⟩ <;> rcases hbc with h2 | ⟨h2, h2s⟩
    · exact Or.inl (h1.trans h2)
    · exact Or.inl (h2 ▸ h1)
    · exact Or.inl (h1 ▸ h2)
    · exact Or.inr ⟨h1.trans h2, le_trans h1s h2s⟩

/-- `snapshots.sort()`. -/
def sortSnaps (l : List Snap) : List Snap := List.insertionSort snapLE l

/-- `_keep_all(snapshots, min_date, max_date)`: the paths of all snapshots
with `min_date <= dt <= max_date`, in list order. -/
def keep_all (snapshots : List Snap) (min_date max_date : Int) : List String :=
  snapshots.filterMap fun s =>
    if min_date ≤ dtSec s.1 ∧ dtSec s.1 ≤ max_date then some s.2 else none

/-- `_keep_last(snapshots, min_date, max_date)`: the path of the greatest
timestamp with `min_date <= dt < max_date`, or nothing when the window is
empty (the filtered list is sorted and its last element taken). -/
def keep_last (snapshots : List Snap) (min_date max_date : Int) : List String :=
  match (sortSnaps (snapshots.filter fun s =>
      decide (min_date ≤ dtSec s.1 ∧ dtSec s.1 < max_date))).getLast? with
  | some p => [p.2]
  | none => []

/-- `inc_month`: first day of the month after `dt`, rolling December into
January of the next year. -/
def inc_month (dt : DateTime) : DateTime :=
  if 12 < dt.m + 1 then ⟨dt.y + 1, 1, 1, 0, 0, 0⟩ else ⟨dt.y, dt.m + 1, 1, 0, 0, 0⟩

/-- `dec_month`: first day of the month before `dt`, rolling January into
December of the previous year. -/
def dec_month (dt : DateTime) : DateTime :=
  if dt.m - 1 < 1 then ⟨dt.y - 1, 12, 1, 0, 0, 0⟩ else ⟨dt.y, dt.m - 1, 1, 0, 0, 0⟩

/-- The `smart_remove` configuration thresholds, `self.smart_remove`. -/
structure SmartCfg where
  keepAll : Int
  keepOneperDay : Int
  keepOneperWeek : Int
  keepOneperMonth : Int
deriving DecidableEq

/-- Months counted from year 0: `12 * y + (m - 1)`; consecutive calendar
months have consecutive indices. -/
def monthIdx (y m : Nat) : Nat := 12 * y + (m - 1)

/-- First day (at midnight) of the month with index `j`. -/
def monthStartDT (j : Nat) : DateTime := ⟨j / 12, j % 12 + 1, 1, 0, 0, 0⟩

/-- Seconds timestamp of the first instant of month `j`. -/
def msec (j : Nat) : Int := dtSec (monthStartDT j)

/-- Midnight ordinal of `now`, i.e. `datetime(now.year, now.month, now.day)`
as a day number. -/
def todayOrd (now : DateTime) : Int := (toOrdinal now.y now.m now.d : Int)

/-- The daily loop of `_smart_remove`: one `_keep_last` call per calendar day
window `[today, today + 1 day)`, walking `today` backward one day per
iteration. -/
def dailyLoop (snapshots : List Snap) : Int → Nat → List String
  | _, 0 => []
  | t, n + 1 =>
      keep_last snapshots (86400 * t) (86400 * t + 86400) ++
        dailyLoop snapshots (t - 1) n

/-- Days the daily loop shifts its `today` cursor by: `keep_one_per_day` when
positive (the loop body decrements `today` that many times), else zero. -/
def dailyShift (cfg : SmartCfg) : Int :=
  if 0 < cfg.keepOneperDay then cfg.keepOneperDay else 0

/-- The start of the first weekly bucket: the code computes
`d = today - timedelta(days=today.weekday() + 1)` where `today` has already
been decremented by the daily loop. -/
def weeklyAnchor (now : DateTime) (cfg : SmartCfg) : Int :=
  todayOrd now - dailyShift cfg -
    (weekdayOf (todayOrd now - dailyShift cfg) + 1)

/-- The weekly loop of `_smart_remove`: `_keep_last` over the 8-day window
`[d, d + 8 days)`, walking `d` backward 7 days per iteration. -/
def weeklyLoop (snapshots : List Snap) : Int → Nat → List String
  | _, 0 => []
  | d, n + 1 =>
      keep_last snapshots (86400 * d) (86400 * (d + 8)) ++
        weeklyLoop snapshots (d - 7) n

/-- The monthly loop of `_smart_remove`: `_keep_last` over `[d1, d2)`, then
`d2 := d1; d1 := dec_month(d1)`. -/
def monthlyLoop (snapshots : List Snap) : DateTime → DateTime → Nat → List String
  | _, _, 0 => []
  | d1, d2, n + 1 =>
      keep_last snapshots (dtSec d1) (dtSec d2) ++
        monthlyLoop snapshots (dec_month d1) d1 n

/-- Daily section of `_smart_remove` (runs only when `keep_one_per_day > 0`). -/
def dailyPart (snapshots : List Snap) (now : DateTime) (cfg : SmartCfg) : List String :=
  if 0 < cfg.keepOneperDay then
    dailyLoop snapshots (todayOrd now) cfg.keepOneperDay.toNat
  else []

/-- Weekly section of `_smart_remove` (runs only when `keep_one_per_week > 0`),
anchored at `weeklyAnchor`. -/
def weeklyPart (snapshots : List Snap) (now : DateTime) (cfg : SmartCfg) : List String :=
  if 0 < cfg.keepOneperWeek then
    weeklyLoop snapshots (weeklyAnchor now cfg) cfg.keepOneperWeek.toNat
  else []

/-- Monthly section of `_smart_remove` (runs only when `keep_one_per_month > 0`):
starts from `d1 = datetime(now.year, now.month, 1)`, `d2 = inc_month(d1)`. -/
def monthlyPart (snapshots : List Snap) (now : DateTime) (cfg : SmartCfg) : List String :=
  if 0 < cfg.keepOneperMonth then
    monthlyLoop snapshots ⟨now.y, now.m, 1, 0, 0, 0⟩
      (inc_month ⟨now.y, now.m, 1, 0, 0, 0⟩) cfg.keepOneperMonth.toNat
  else []

/-- Yearly section of `_smart_remove`: for every year from the first (sorted)
snapshot's year through the current year, `_keep_last` over the calendar year. -/
def yearlyPart (snapshots : List Snap) (now : DateTime) : List String :=
  match snapshots with
  | [] => []
  | s :: _ =>
      (List.range' s.1.y (now.y + 1 - s.1.y)).flatMap fun i =>
        keep_last snapshots (86400 * (toOrdinal i 1 1 : Int))
          (86400 * (toOrdinal (i + 1) 1 1 : Int))

/-- The keep list of `_smart_remove` on the (in-place sorted) snapshot list:
the chronologically last snapshot, then the keep-all, daily, weekly, monthly
and yearly contributions, in program order. -/
def keepList (sorted : List Snap) (now : DateTime) (cfg : SmartCfg) : List String :=
  (match sorted.getLast? with | some p => [p.2] | none => []) ++
    (if 0 < cfg.keepAll then
      keep_all sorted (dtSec now - 86400 * cfg.keepAll) (dtSec now) else []) ++
    dailyPart sorted now cfg ++ weeklyPart sorted now cfg ++
    monthlyPart sorted now cfg ++ yearlyPart sorted now

/-- `_smart_remove(snapshots)`: returns the deletion list (the paths whose
directory trees are then removed). No-op when at most one snapshot exists;
otherwise the complement of the keep set against the sorted snapshot list,
in sorted order. -/
def smart_remove (snapshots : List Snap) (now : DateTime) (cfg : SmartCfg) : List String :=
  if snapshots.length ≤ 1 then []
  else
    let sorted := sortSnaps snapshots
    let keep := keepList sorted now cfg
    sorted.filterMap fun s => if s.2 ∈ keep then none else some s.2

/-- Filesystem statistics as `_get_stat` returns them (`os.statvfs` fields
`f_files`, `f_favail`, `f_bavail`, `f_bsize`, `f_blocks`). -/
structure Stat where
  files : Nat
  ffree : Nat
  bavail : Nat
  bsize : Nat
  blocks : Nat
deriving DecidableEq

/-- `_check_freespace`: first component is the `sys.exit` code (`some 2` on a
capacity abort, `none` otherwise); second component is the `_check_inodes`
flag after the call (set `False` exactly when the filesystem reports zero
total inodes, in which case the inode comparison is skipped). Free space is
`bavail * bsize / 1048576.0` megabytes; the float division is exact here and
modelled over ℚ. -/
def check_freespace (st : Stat) (min_inodes min_space : Nat) : Option Nat × Bool :=
  if st.files = 0 then
    (if mkRat (st.bavail * st.bsize) 1048576 < mkRat min_space 1 then some 2 else none,
      false)
  else if st.ffree < min_inodes then (some 2, true)
  else
    (if mkRat (st.bavail * st.bsize) 1048576 < mkRat min_space 1 then some 2 else none,
      true)

/-- What rsync's exit status leads to in `_run_rsync`: a success log, an
error log with the mapped reason (`RSYNC_EXIT_CODE[status]`), or — for a
status missing from the map — a `KeyError` swallowed by the bare `except`,
logged as a plain exception. Nothing is ever raised or fatal. -/
inductive RsyncLog where
  | success
  | error (status : Int)
  | exception
deriving DecidableEq

/-- The keys of `RSYNC_EXIT_CODE` other than 0. -/
def rsyncKnownCodes : List Int :=
  [1, 2, 3, 4, 5, 6, 10, 11, 12, 13, 14, 20, 21, 22, 23, 24, 25, 30, 35]

/-- `_run_rsync`: total — it never exits and never propagates an exception. -/
def run_rsync (status : Int) : RsyncLog :=
  if status = 0 then .success
  else if status ∈ rsyncKnownCodes then .error status
  else .exception

/-- The filesystem entry at the `latest` path: nothing, a non-symlink entry
(`isDir` distinguishes a directory — where `os.remove` raises
`IsADirectoryError` and a remote `rm` without `-r` fails — from a regular
file), or a symbolic link together with whether its target exists. The
stored target is the full path (the program only ever creates
absolute-target links, so `os.path.join(self._dst_path,
os.readlink(latest))` returns it unchanged). -/
inductive Entry where
  | absent
  | nonlink (isDir : Bool)
  | symlink (target : String) (targetExists : Bool)
deriving DecidableEq

/-- The dictionary `_get_file_stat` returns. `exst` is the key `'exists'`. -/
structure FileStat where
  exst : Bool
  broken : Bool
  islink : Bool
  target : Option String
deriving DecidableEq

/-- `_get_file_stat(latest)` for a local (`remote = false`) or remote
destination. Locally `result['exists'] = os.path.islink(latest)` in both
branches, so only a symlink is ever reported as existing; remotely `exists`
is set by the `[ -e ]` or the `[ -L ]` probe. -/
def get_file_stat (remote : Bool) (e : Entry) : FileStat :=
  if remote then
    match e with
    | .absent => ⟨false, true, false, none⟩
    | .nonlink _ => ⟨true, false, false, none⟩
    | .symlink t te => ⟨true, !te, true, some t⟩
  else
    match e with
    | .symlink t te => ⟨true, !te, true, some t⟩
    | _ => ⟨false, false, false, none⟩

/-- Which of the three `_take_snapshot` branches runs, given the snapshot
count, the `latest` stat and whether the `cp -arl` clone succeeds.
`typeErr` is the remote-only crash when `exists` holds with no readlink
target (the `None` is passed to `subprocess.run`). -/
inductive SnapBranch where
  | clone
  | cloneFail
  | typeErr
  | anomaly
  | fresh
deriving DecidableEq

/-- Branch selection of `_take_snapshot` (lines 237, 250, 270). -/
def snapBranch (n : Nat) (stat : FileStat) (cloneOk : Bool) : SnapBranch :=
  if 0 < n ∧ stat.exst then
    match stat.target with
    | some _ => if cloneOk then .clone else .cloneFail
    | none => .typeErr
  else if 0 < n then .anomaly
  else .fresh

/-- Everything observable about one `_take_snapshot` call. -/
structure TakeResult where
  exitCode : Option Nat
  entryAfter : Entry
  cloned : Bool
  createdSnapDir : Bool
  ranSync : Bool
  syncStatus : Option Int
  syncLog : Option RsyncLog
  loggedAnomaly : Bool
  ranRetention : Bool
  deletions : List String
deriving DecidableEq

/-- Effect of the remote `_run([... 'rm', latest])` (lines 253, 272, 290):
removes a file or a symlink; fails on a directory (no `-r`) or on nothing,
the exit status being ignored either way. -/
def remoteRm (e : Entry) : Entry :=
  match e with
  | .nonlink true => .nonlink true
  | _ => .absent

/-- Effect of the remote `_run([... 'ln', '-s', backup_dst, latest])` on the
entry at the `latest` path: with nothing there the link is created; over an
existing file or link `ln -s` fails (status ignored), and over a directory
the link is created inside it — either way the entry at the path itself is
unchanged. -/
def remoteLn (e : Entry) (backupDst : String) : Entry :=
  match e with
  | .absent => .symlink backupDst true
  | e => e

/-- The endgame of the anomaly branch (lines 250-268): after an optional
removal of a broken link (lines 251-255, dead in practice since
`islink` implies `exists`) and the anomaly log, the code runs
`mkdir backup_dst` and then recreates the pointer. Locally
`os.symlink(backup_dst, latest)` raises an uncaught `FileExistsError` when
any entry still occupies the path, so the process dies with a traceback
(interpreter status 1) and the pointer is not recreated; only with the path
free does the branch reach its `exit(2)`. Remotely the `ln -s` failure is
ignored and the `exit(2)` is always reached. -/
def anomalyFinish (remote : Bool) (e : Entry) (backupDst : String) : TakeResult :=
  { exitCode := if remote = false ∧ e ≠ Entry.absent then some 1 else some 2,
    entryAfter :=
      if remote then remoteLn e backupDst
      else if e = Entry.absent then Entry.symlink backupDst true else e,
    cloned := false, createdSnapDir := true, ranSync := false, syncStatus := none,
    syncLog := none, loggedAnomaly := true, ranRetention := false, deletions := [] }

/-- The local pointer update after rsync (lines 292-294): only when
`os.path.exists(latest)` — which follows symlinks — is the pointer removed
and recreated at the new snapshot. For a directory the `os.remove` raise is
handled by `afterSync` (this function then reports the surviving entry). -/
def reseatLocal (e : Entry) (backupDst : String) : Entry :=
  match e with
  | .symlink _ te => if te then .symlink backupDst true else e
  | .nonlink isDir => if isDir then .nonlink true else .symlink backupDst true
  | .absent => .absent

/-- The remote pointer update after rsync (lines 289-291): `rm latest` then
`ln -s backup_dst latest`, both exit statuses ignored; on a directory the
`rm` fails and the `ln -s` lands inside it, leaving the directory at the
path. -/
def remoteReseat (e : Entry) (backupDst : String) : Entry :=
  remoteLn (remoteRm e) backupDst

/-- The tail of `_take_snapshot` once a branch decided to proceed: the
snapshot directory exists (cloned or freshly created), rsync runs with the
given status, the pointer is updated (lines 289-294), and `_smart_remove`
is invoked on the snapshot list discovered at the top of `_take_snapshot`.
One exception: locally, a directory at the `latest` path makes
`os.path.exists` true and the `os.remove` at line 293 then raises an
uncaught `IsADirectoryError`, killing the run (status 1) after the sync but
before retention. (No reachable `_take_snapshot` path feeds a directory
into the local case: the empty-destination branch dies earlier on it.) -/
def afterSync (remote : Bool) (snapshots : List Snap) (e : Entry) (backupDst : String)
    (cloned : Bool) (status : Int) (now : DateTime) (cfg : SmartCfg) : TakeResult :=
  { exitCode := if remote = false ∧ e = Entry.nonlink true then some 1 else none,
    entryAfter := if remote then remoteReseat e backupDst else reseatLocal e backupDst,
    cloned := cloned,
    createdSnapDir := true,
    ranSync := true,
    syncStatus := some status,
    syncLog := some (run_rsync status),
    loggedAnomaly := false,
    ranRetention := if remote = false ∧ e = Entry.nonlink true then false else true,
    deletions := if remote = false ∧ e = Entry.nonlink true then []
      else smart_remove snapshots now cfg }

/-- `_take_snapshot` (lines 221-296). `snapshots` is `_find_snapshots()`;
`backupDst` the new directory path derived from the current time; `cloneOk`
whether the external `cp -arl` succeeds (false whenever the clone source is
missing); `status` the rsync exit status. In the empty-destination branch
(lines 270-274) the stale-pointer cleanup removes a local file or link,
raises an uncaught `IsADirectoryError` on a local directory, and remotely
runs the status-ignored `rm`. -/
def take_snapshot (remote : Bool) (snapshots : List Snap) (entry : Entry)
    (backupDst : String) (cloneOk : Bool) (status : Int) (now : DateTime)
    (cfg : SmartCfg) : TakeResult :=
  match snapBranch snapshots.length (get_file_stat remote entry) cloneOk with
  | .clone => afterSync remote snapshots entry backupDst true status now cfg
  | .cloneFail =>
      { exitCode := some 2, entryAfter := entry, cloned := false,
        createdSnapDir := false, ranSync := false, syncStatus := none,
        syncLog := none, loggedAnomaly := false, ranRetention := false,
        deletions := [] }
  | .typeErr =>
      { exitCode := some 1, entryAfter := entry, cloned := false,
        createdSnapDir := false, ranSync := false, syncStatus := none,
        syncLog := none, loggedAnomaly := false, ranRetention := false,
        deletions := [] }
  | .anomaly =>
      anomalyFinish remote
        (if (get_file_stat remote entry).islink then Entry.absent else entry)
        backupDst
  | .fresh =>
      if remote then
        afterSync true snapshots (remoteRm entry) backupDst false status now cfg
      else if entry = Entry.nonlink true then
        { exitCode := some 1, entryAfter := entry, cloned := false,
          createdSnapDir := false, ranSync := false, syncStatus := none,
          syncLog := none, loggedAnomaly := false, ranRetention := false,
          deletions := [] }
      else
        afterSync false snapshots .absent backupDst false status now cfg

/-- Outcome of one `run()` as far as destination mutations go:
`createdDestDir` records whether `_create_dest_directory` made the
destination directory (it runs before `_check_freespace`), `aborted` the
process exit status, `snap` the snapshot step's result when it ran. -/
structure RunResult where
  createdDestDir : Bool
  aborted : Option Nat
  snap : Option TakeResult
deriving DecidableEq

/-- `run()` after the lock: `_create_dest_directory()` (which creates the
destination directory when absent), then `_check_freespace()` (which may
`sys.exit(2)`), then `_take_snapshot()`. -/
def runModel (destExists : Bool) (st : Stat) (min_inodes min_space : Nat)
    (remote : Bool) (snapshots : List Snap) (entry : Entry) (backupDst : String)
    (cloneOk : Bool) (status : Int) (now : DateTime) (cfg : SmartCfg) : RunResult :=
  let created := !destExists
  match (check_freespace st min_inodes min_space).1 with
  | some c => { createdDestDir := created, aborted := some c, snap := none }
  | none =>
      let ts := take_snapshot remote snapshots entry backupDst cloneOk status now cfg
      { createdDestDir := created, aborted := ts.exitCode, snap := some ts }

/-- Weekly anchor as the specification text words it (not as the code
computes it): the most recent week start (Sunday) at or before today itself,
unaffected by the daily loop. Used only to compare the claim against the
code. -/
def claimedWeeklyAnchor (now : DateTime) : Int :=
  todayOrd now - ((weekdayOf (todayOrd now) + 1) % 7)

/-- Weekly rule as the specification text words it: buckets walked back 7
days from `claimedWeeklyAnchor`, each keeping the latest snapshot of its
8-day window. Used only to compare the claim against the code. -/
def claimedWeeklyPart (snapshots : List Snap) (now : DateTime) (cfg : SmartCfg) :
    List String :=
  if 0 < cfg.keepOneperWeek then
    weeklyLoop snapshots (claimedWeeklyAnchor now) cfg.keepOneperWeek.toNat
  else []

/-- The window characterization of `_keep_last` shared by the retention
claims: an empty window keeps nothing, and a window containing a strictly
greatest timestamp keeps exactly that snapshot's path. -/
def KeepLastSpec (snapshots : List Snap) : Prop :=
  ∀ mn mx : Int,
    (keep_last snapshots mn mx = [] ↔
      snapshots.filter (fun s => decide (mn ≤ dtSec s.1 ∧ dtSec s.1 < mx)) = []) ∧
    ∀ p ∈ snapshots, mn ≤ dtSec p.1 → dtSec p.1 < mx →
      (∀ q ∈ snapshots, q ≠ p → mn ≤ dtSec q.1 → dtSec q.1 < mx →
        dtSec q.1 < dtSec p.1) →
      keep_last snapshots mn mx = [p.2]

/-- The weekly rule as the code actually behaves (claim C7 amended): the
anchor is the most recent Sunday strictly before today minus the daily-loop
shift, and the loop is exactly the 8-day windows walked back 7 days. -/
def WeeklyAmended (snapshots : List Snap) (now : DateTime) (cfg : SmartCfg) : Prop :=
  (weekdayOf (weeklyAnchor now cfg) = 6 ∧
    weeklyAnchor now cfg < todayOrd now - dailyShift cfg ∧
    ∀ w : Int, weekdayOf w = 6 → w < todayOrd now - dailyShift cfg →
      w ≤ weeklyAnchor now cfg) ∧
  weeklyPart snapshots now cfg =
    (List.range cfg.keepOneperWeek.toNat).flatMap fun i =>
      keep_last snapshots (86400 * (weeklyAnchor now cfg - 7 * (i : Int)))
        (86400 * (weeklyAnchor now cfg - 7 * (i : Int) + 8))

/-- Characterization of `inc_month` and `dec_month`: first day of the
next/previous calendar month, rolling the year across the December/January
boundary; on month indices they are successor and predecessor. -/
def IncDecSpec : Prop :=
  (∀ t : DateTime, 1 ≤ t.m → t.m ≤ 12 →
    inc_month t = ⟨if t.m = 12 then t.y + 1 else t.y,
      if t.m = 12 then 1 else t.m + 1, 1, 0, 0, 0⟩ ∧
    monthIdx (inc_month t).y (inc_month t).m = monthIdx t.y t.m + 1) ∧
  (∀ t : DateTime, 1 ≤ t.m → t.m ≤ 12 → (1 ≤ t.y ∨ 2 ≤ t.m) →
    dec_month t = ⟨if t.m = 1 then t.y - 1 else t.y,
      if t.m = 1 then 12 else t.m - 1, 1, 0, 0, 0⟩ ∧
    monthIdx (dec_month t).y (dec_month t).m = monthIdx t.y t.m - 1)

/-- The monthly retention rule: its buckets are exactly the true calendar
months walking back from the current month, and membership of a valid
timestamp in a bucket window is membership in that calendar month. -/
def MonthlyAmended (snapshots : List Snap) (now : DateTime) (cfg : SmartCfg) : Prop :=
  monthlyPart snapshots now cfg =
    (List.range cfg.keepOneperMonth.toNat).flatMap (fun i =>
      keep_last snapshots (msec (monthIdx now.y now.m - i))
        (msec (monthIdx now.y now.m - i + 1))) ∧
  ∀ i < cfg.keepOneperMonth.toNat, ∀ s ∈ snapshots, ValidDT s.1 →
    ((msec (monthIdx now.y now.m - i) ≤ dtSec s.1 ∧
        dtSec s.1 < msec (monthIdx now.y now.m - i + 1)) ↔
      monthIdx s.1.y s.1.m = monthIdx now.y now.m - i)

/-- What claim C5 asserts of a run whose sync step ran with a nonzero
status: no abort, retention ran, and every observable apart from the logged
status equals the zero-status run. -/
def C5Concl (remote : Bool) (snapshots : List Snap) (entry : Entry) (backupDst : String)
    (cloneOk : Bool) (status : Int) (now : DateTime) (cfg : SmartCfg) : Prop :=
  (take_snapshot remote snapshots entry backupDst cloneOk status now cfg).exitCode
      = none ∧
  (take_snapshot remote snapshots entry backupDst cloneOk status now cfg).ranRetention
      = true ∧
  (take_snapshot remote snapshots entry backupDst cloneOk 0 now cfg).ranSync = true ∧
  (take_snapshot remote snapshots entry backupDst cloneOk status now cfg).entryAfter
      = (take_snapshot remote snapshots entry backupDst cloneOk 0 now cfg).entryAfter ∧
  (take_snapshot remote snapshots entry backupDst cloneOk status now cfg).deletions
      = (take_snapshot remote snapshots entry backupDst cloneOk 0 now cfg).deletions ∧
  (take_snapshot remote snapshots entry backupDst cloneOk status now cfg).createdSnapDir
      = (take_snapshot remote snapshots entry backupDst cloneOk 0 now cfg).createdSnapDir ∧
  (take_snapshot remote snapshots entry backupDst cloneOk status now cfg).syncLog
      = some (run_rsync status)

/-- What claim C9 asserts: retention consumes the pre-creation snapshot
list, so the fresh directory is never deleted, and a singleton list deletes
nothing. -/
def C9Concl (remote : Bool) (snapshots : List Snap) (entry : Entry) (backupDst : String)
    (cloneOk : Bool) (status : Int) (now : DateTime) (cfg : SmartCfg) : Prop :=
  ((take_snapshot remote snapshots entry backupDst cloneOk status now cfg).ranRetention
      = true →
    (take_snapshot remote snapshots entry backupDst cloneOk status now cfg).deletions
      = smart_remove snapshots now cfg) ∧
  backupDst ∉ (take_snapshot remote snapshots entry backupDst cloneOk status now cfg).deletions ∧
  (snapshots.length = 1 →
    (take_snapshot remote snapshots entry backupDst cloneOk status now cfg).deletions = [])

/-- Concrete run date for witnesses: Monday 2026-10-12, 12:00:00 UTC. -/
def now0 : DateTime := ⟨2026, 10, 12, 12, 0, 0⟩

/-- The default retention configuration (`keep_all = 1`, `keep_one_per_day
= 7`, `keep_one_per_week = 4`, `keep_one_per_month = 12`). -/
def cfg0 : SmartCfg := ⟨1, 7, 4, 12⟩

/-- Default configuration with a single weekly bucket, for the weekly-rule
counterexample. -/
def cfg7 : SmartCfg := ⟨1, 7, 1, 12⟩

/-- Two snapshots around the weekly bucket boundary: Sunday 2026-10-11 02:00
and Monday 2026-10-12 08:00. -/
def snaps0 : List Snap :=
  [(⟨2026, 10, 11, 2, 0, 0⟩, "s1"), (⟨2026, 10, 12, 8, 0, 0⟩, "s2")]

/-- First backup into an empty destination (no prior snapshots, no pointer). -/
def c1run : TakeResult := take_snapshot false [] .absent "B" true 0 now0 cfg0

/-- A run with one prior snapshot whose `latest` symlink is broken (target
missing): the clone of the missing target fails. -/
def c4run : TakeResult :=
  take_snapshot false [(⟨2026, 10, 11, 2, 0, 0⟩, "s1")] (.symlink "T" false) "B"
    false 0 now0 cfg0

/-- Filesystem statistics with plenty of space but only 10 free inodes. -/
def c3stat : Stat := ⟨1000000, 10, 1000000, 4096, 1000000⟩

/-- A run against a not-yet-existing destination that fails the inode check. -/
def c3run : RunResult :=
  runModel false c3stat 100000 1024 false [] .absent "B" true 0 now0 cfg0

/-- Run date inside January for the month-boundary witness. -/
def now8 : DateTime := ⟨2026, 1, 15, 10, 0, 0⟩

/-- Configuration keeping two monthly buckets (January 2026, December 2025). -/
def cfg8 : SmartCfg := ⟨1, 7, 4, 2⟩

/-- Two snapshots straddling the December 2025 / January 2026 boundary. -/
def snaps8 : List Snap :=
  [(⟨2025, 12, 30, 23, 0, 0⟩, "dec30"), (⟨2026, 1, 10, 5, 0, 0⟩, "jan10")]

/-! Helper lemmas about sorting and window selection. -/

lemma sortSnaps_perm (l : List Snap) : List.Perm (sortSnaps l) l :=
  List.perm_insertionSort _ l

lemma sortSnaps_sorted (l : List Snap) : List.Sorted snapLE (sortSnaps l) :=
  List.sorted_insertionSort _ l

lemma mem_of_getLast?_eq {l : List Snap} {b : Snap} (h : l.getLast? = some b) : b ∈ l := by
  obtain ⟨hne, hb⟩ := List.mem_getLast?_eq_getLast (show b ∈ l.getLast? from h)
  exact hb ▸ List.getLast_mem hne

lemma sorted_getLast?_max {b x : Snap} :
    ∀ {l : List Snap}, List.Sorted snapLE l → l.getLast? = some b → x ∈ l → x ≠ b →
      snapLE x b := by
  intro l
  induction l with
  | nil => intro _ hb; simp at hb
  | cons a t ih =>
    intro hs hb hx hne
    rcases List.sorted_cons.mp hs with ⟨ha, ht⟩
    cases t with
    | nil =>
      simp only [List.getLast?_singleton, Option.some.injEq] at hb
      simp only [List.mem_singleton] at hx
      exact absurd (hx.trans hb) hne
    | cons c t2 =>
      rw [List.getLast?_cons_cons] at hb
      rcases List.mem_cons.mp hx with rfl | hx2
      · exact ha b (mem_of_getLast?_eq hb)
      · exact ih ht hb hx2 hne

lemma sortSnaps_getLast?_eq {l : List Snap} {m : Snap} (hm : m ∈ l)
    (hmax : ∀ q ∈ l, q ≠ m → dtSec q.1 < dtSec m.1) :
    (sortSnaps l).getLast? = some m := by
  have hms : m ∈ sortSnaps l := (sortSnaps_perm l).mem_iff.mpr hm
  have hne : sortSnaps l ≠ [] := by
    intro h
    rw [h] at hms
    simp at hms
  obtain ⟨b, hb⟩ : ∃ b, (sortSnaps l).getLast? = some b :=
    ⟨_, List.getLast?_eq_getLast_of_ne_nil hne⟩
  have hbl : b ∈ l := (sortSnaps_perm l).mem_iff.mp (mem_of_getLast?_eq hb)
  rcases eq_or_ne b m with rfl | hbm
  · exact hb
  · exfalso
    have h1 : dtSec b.1 < dtSec m.1 := hmax b hbl hbm
    have h2 : snapLE m b :=
      sorted_getLast?_max (sortSnaps_sorted l) hb hms (fun h => hbm h.symm)
    rcases h2 with h2 | ⟨h2, _⟩
    · exact absurd h1 (not_lt.mpr h2.le)
    · exact absurd h1 (not_lt.mpr h2.le)

lemma keep_last_eq_nil_iff (snapshots : List Snap) (mn mx : Int) :
    keep_last snapshots mn mx = [] ↔
      snapshots.filter (fun s => decide (mn ≤ dtSec s.1 ∧ dtSec s.1 < mx)) = [] := by
  unfold keep_last
  rcases h : (sortSnaps (snapshots.filter fun s =>
      decide (mn ≤ dtSec s.1 ∧ dtSec s.1 < mx))).getLast? with _ | p
  · simp only [h]
    have hnil : sortSnaps (snapshots.filter fun s =>
        decide (mn ≤ dtSec s.1 ∧ dtSec s.1 < mx)) = [] :=
      List.getLast?_eq_none_iff.mp h
    have hp := sortSnaps_perm (snapshots.filter fun s =>
      decide (mn ≤ dtSec s.1 ∧ dtSec s.1 < mx))
    rw [hnil] at hp
    exact iff_of_true trivial hp.nil_eq.symm
  · simp only [h]
    have hpf : p ∈ snapshots.filter fun s => decide (mn ≤ dtSec s.1 ∧ dtSec s.1 < mx) :=
      (sortSnaps_perm _).mem_iff.mp (mem_of_getLast?_eq h)
    refine iff_of_false (by simp) fun hf => ?_
    rw [hf] at hpf
    simp at hpf

lemma keep_last_eq_of_max {snapshots : List Snap} {mn mx : Int} {p : Snap}
    (hp : p ∈ snapshots) (h1 : mn ≤ dtSec p.1) (h2 : dtSec p.1 < mx)
    (hmax : ∀ q ∈ snapshots, q ≠ p → mn ≤ dtSec q.1 → dtSec q.1 < mx →
      dtSec q.1 < dtSec p.1) :
    keep_last snapshots mn mx = [p.2] := by
  unfold keep_last
  have hpf : p ∈ snapshots.filter fun s => decide (mn ≤ dtSec s.1 ∧ dtSec s.1 < mx) :=
    List.mem_filter.mpr ⟨hp, by simp [h1, h2]⟩
  have hmax2 : ∀ q ∈ snapshots.filter fun s => decide (mn ≤ dtSec s.1 ∧ dtSec s.1 < mx),
      q ≠ p → dtSec q.1 < dtSec p.1 := by
    intro q hq hne
    rcases List.mem_filter.mp hq with ⟨hq1, hq2⟩
    simp only [decide_eq_true_eq] at hq2
    exact hmax q hq1 hne hq2.1 hq2.2
  rw [sortSnaps_getLast?_eq hpf hmax2]

lemma snapBranch_not_exists {n : Nat} {stat : FileStat} {cloneOk : Bool}
    (h : stat.exst = false) :
    snapBranch n stat cloneOk = if 0 < n then .anomaly else .fresh := by
  unfold snapBranch
  simp [h]

lemma clone_entry_not_local_dir {n : Nat} {remote : Bool} {entry : Entry}
    {cloneOk : Bool}
    (hb : snapBranch n (get_file_stat remote entry) cloneOk = SnapBranch.clone) :
    ¬(remote = false ∧ entry = Entry.nonlink true) := by
  rintro ⟨rfl, rfl⟩
  rw [snapBranch_not_exists rfl] at hb
  split_ifs at hb

lemma keepLastSpec_holds (snapshots : List Snap) : KeepLastSpec snapshots := by
  intro mn mx
  exact ⟨keep_last_eq_nil_iff snapshots mn mx,
    fun p hp h1 h2 hmax => keep_last_eq_of_max hp h1 h2 hmax⟩

/-! Calendar lemmas: month boundaries behave like the Gregorian calendar. -/

lemma one_le_daysInMonth (y m : Nat) : 1 ≤ daysInMonth y m := by
  unfold daysInMonth leapBit
  split <;> omega

lemma dbm_succ (y m : Nat) (hm1 : 1 ≤ m) (hm2 : m ≤ 12) :
    dbm y (m + 1) = dbm y m + daysInMonth y m := by
  interval_cases m <;>
    simp only [dbm, dbmBase, daysInMonth, leapBit] <;> split_ifs <;> omega

lemma dby_succ (y : Nat) (hy : 1 ≤ y) : dby (y + 1) = dby y + daysInYear y := by
  obtain ⟨yp, rfl⟩ : ∃ yp, y = yp + 1 := ⟨y - 1, by omega⟩
  show 365 * (yp + 1) + (yp + 1) / 4 - (yp + 1) / 100 + (yp + 1) / 400 =
    365 * yp + yp / 4 - yp / 100 + yp / 400 + daysInYear (yp + 1)
  unfold daysInYear leapBit isLeap
  simp only [Nat.succ_div]
  split_ifs <;> omega

lemma monthStartDT_monthIdx (y m : Nat) (hm1 : 1 ≤ m) (hm2 : m ≤ 12) :
    monthStartDT (monthIdx y m) = ⟨y, m, 1, 0, 0, 0⟩ := by
  unfold monthStartDT monthIdx
  have h1 : (12 * y + (m - 1)) / 12 = y := by omega
  have h2 : (12 * y + (m - 1)) % 12 + 1 = m := by omega
  rw [h1, h2]

lemma monthIdx_monthStart (j : Nat) :
    monthIdx (monthStartDT j).y (monthStartDT j).m = j := by
  unfold monthStartDT monthIdx
  dsimp only
  omega

lemma monthStartDT_valid (j : Nat) (hj : 12 ≤ j) : ValidDT (monthStartDT j) := by
  unfold ValidDT monthStartDT
  dsimp only
  exact ⟨by omega, by omega, by omega, by omega, one_le_daysInMonth _ _,
    by omega, by omega, by omega⟩

lemma msec_le_dtSec (s : DateTime) (hv : ValidDT s) :
    msec (monthIdx s.y s.m) ≤ dtSec s := by
  rcases s with ⟨y, m, d, hh, mi, ss⟩
  unfold ValidDT at hv
  dsimp only at hv ⊢
  obtain ⟨hy, hm1, hm2, hd1, hd2, hhh, hmi, hss⟩ := hv
  rw [msec, monthStartDT_monthIdx y m hm1 hm2]
  unfold dtSec toOrdinal
  dsimp only
  push_cast
  omega

lemma dtSec_lt_next (s : DateTime) (hv : ValidDT s) :
    dtSec s < msec (monthIdx s.y s.m + 1) := by
  rcases s with ⟨y, m, d, hh, mi, ss⟩
  unfold ValidDT at hv
  dsimp only at hv ⊢
  obtain ⟨hy, hm1, hm2, hd1, hd2, hhh, hmi, hss⟩ := hv
  rcases Nat.lt_or_ge m 12 with h12 | h12
  · have hstep : monthIdx y m + 1 = monthIdx y (m + 1) := by unfold monthIdx; omega
    rw [hstep, msec, monthStartDT_monthIdx y (m + 1) (by omega) (by omega)]
    unfold dtSec toOrdinal
    dsimp only
    rw [dbm_succ y m hm1 hm2]
    push_cast
    omega
  · have hm12 : m = 12 := le_antisymm hm2 h12
    subst hm12
    have hstep : monthIdx y 12 + 1 = monthIdx (y + 1) 1 := by unfold monthIdx; omega
    rw [hstep, msec, monthStartDT_monthIdx (y + 1) 1 (by omega) (by omega)]
    unfold dtSec toOrdinal
    dsimp only
    rw [dby_succ y hy]
    have h1 : dbm (y + 1) 1 = 0 := by unfold dbm dbmBase; norm_num
    have h2 : dbm y 12 = 334 + leapBit y := by unfold dbm dbmBase; norm_num
    have h3 : daysInMonth y 12 = 31 := rfl
    rw [h1, h2]
    rw [h3] at hd2
    unfold daysInYear
    push_cast
    omega

lemma msec_lt_succ (j : Nat) (hj : 12 ≤ j) : msec j < msec (j + 1) := by
  have h := dtSec_lt_next (monthStartDT j) (monthStartDT_valid j hj)
  rwa [monthIdx_monthStart] at h

lemma msec_mono {j k : Nat} (hj : 12 ≤ j) (hjk : j ≤ k) : msec j ≤ msec k := by
  induction k, hjk using Nat.le_induction with
  | base => exact le_refl _
  | succ k hk ih => exact le_trans ih (le_of_lt (msec_lt_succ k (le_trans hj hk)))

lemma mem_month_iff (s : DateTime) (hv : ValidDT s) (j : Nat) (hj : 12 ≤ j) :
    (msec j ≤ dtSec s ∧ dtSec s < msec (j + 1)) ↔ monthIdx s.y s.m = j := by
  have hj0 : 12 ≤ monthIdx s.y s.m := by
    have hy := hv.1
    have hm := hv.2.1
    unfold monthIdx
    omega
  constructor
  · rintro ⟨hl, hr⟩
    by_contra hne
    rcases Nat.lt_or_ge (monthIdx s.y s.m) j with h | h
    · have h1 : msec (monthIdx s.y s.m + 1) ≤ msec j := msec_mono (by omega) (by omega)
      have h2 := dtSec_lt_next s hv
      omega
    · have h1 : msec (j + 1) ≤ msec (monthIdx s.y s.m) := msec_mono (by omega) (by omega)
      have h2 := msec_le_dtSec s hv
      omega
  · rintro rfl
    exact ⟨msec_le_dtSec s hv, dtSec_lt_next s hv⟩

lemma inc_month_monthStart (j : Nat) :
    inc_month (monthStartDT j) = monthStartDT (j + 1) := by
  unfold inc_month monthStartDT
  dsimp only
  split_ifs with h <;> simp only [DateTime.mk.injEq, and_true] <;> omega

lemma dec_month_monthStart (j : Nat) (hj : 1 ≤ j) :
    dec_month (monthStartDT j) = monthStartDT (j - 1) := by
  unfold dec_month monthStartDT
  dsimp only
  split_ifs with h <;> simp only [DateTime.mk.injEq, and_true] <;> omega

lemma weeklyLoop_eq (snapshots : List Snap) :
    ∀ (n : Nat) (d : Int), weeklyLoop snapshots d n =
      (List.range n).flatMap fun i =>
        keep_last snapshots (86400 * (d - 7 * (i : Int)))
          (86400 * (d - 7 * (i : Int) + 8)) := by
  intro n
  induction n with
  | zero => intro d; simp [weeklyLoop]
  | succ n ih =>
    intro d
    simp only [weeklyLoop]
    rw [List.range_succ_eq_map, List.flatMap_cons, List.flatMap_map, ih (d - 7)]
    congr 1
    · congr 1 <;> push_cast <;> ring
    · congr 1
      funext i
      congr 1 <;> push_cast <;> ring

lemma monthlyLoop_eq (snapshots : List Snap) :
    ∀ (n j : Nat), n ≤ j →
      monthlyLoop snapshots (monthStartDT j) (monthStartDT (j + 1)) n =
        (List.range n).flatMap fun i =>
          keep_last snapshots (msec (j - i)) (msec (j - i + 1)) := by
  intro n
  induction n with
  | zero => intro j _; simp [monthlyLoop]
  | succ n ih =>
    intro j hj
    simp only [monthlyLoop]
    rw [dec_month_monthStart j (by omega)]
    rw [List.range_succ_eq_map, List.flatMap_cons, List.flatMap_map]
    congr 1
    have hj1 : monthStartDT j = monthStartDT (j - 1 + 1) := by congr 1; omega
    rw [hj1, ih (j - 1) (by omega)]
    congr 1
    funext i
    have e1 : j - 1 - i = j - i.succ := by omega
    rw [e1]

lemma smart_remove_subset (snapshots : List Snap) (now : DateTime) (cfg : SmartCfg) :
    ∀ x ∈ smart_remove snapshots now cfg, x ∈ snapshots.map Prod.snd := by
  intro x hx
  unfold smart_remove at hx
  by_cases h : snapshots.length ≤ 1
  · rw [if_pos h] at hx
    simp at hx
  · rw [if_neg h] at hx
    rcases List.mem_filterMap.mp hx with ⟨s, hs, hsome⟩
    have hxs : x = s.2 := by
      by_cases hk : s.2 ∈ keepList (sortSnaps snapshots) now cfg
      · rw [if_pos hk] at hsome; cases hsome
      · rw [if_neg hk] at hsome; exact (Option.some.injEq _ _ ▸ hsome).symm
    exact hxs ▸ List.mem_map_of_mem Prod.snd ((sortSnaps_perm snapshots).mem_iff.mp hs)

lemma smart_remove_of_short (snapshots : List Snap) (now : DateTime) (cfg : SmartCfg)
    (h : snapshots.length ≤ 1) : smart_remove snapshots now cfg = [] := by
  unfold smart_remove
  rw [if_pos h]

lemma not_mem_smart_remove_of_keep {snapshots : List Snap} {now : DateTime}
    {cfg : SmartCfg} {x : String}
    (hk : x ∈ keepList (sortSnaps snapshots) now cfg) :
    x ∉ smart_remove snapshots now cfg := by
  intro hx
  unfold smart_remove at hx
  by_cases h : snapshots.length ≤ 1
  · rw [if_pos h] at hx; simp at hx
  · rw [if_neg h] at hx
    rcases List.mem_filterMap.mp hx with ⟨s, _, hsome⟩
    by_cases hks : s.2 ∈ keepList (sortSnaps snapshots) now cfg
    · rw [if_pos hks] at hsome; cases hsome
    · rw [if_neg hks] at hsome
      exact hks ((Option.some.injEq _ _ ▸ hsome) ▸ hk)

/-! Claim theorems. -/

/-- Claim C1 (evaluation at the failing input): after the first snapshot into
an empty local destination the run reaches the sync step and completes, yet
no `latest` pointer exists afterwards — the reseat at lines 292-294 is inside
an `elif os.path.exists(latest)` guard that is false here, contradicting the
claim that the pointer is reseated on every run that reaches step 3. -/
theorem C1_first_run_leaves_no_pointer :
    c1run.ranSync = true ∧ c1run.exitCode = none ∧ c1run.createdSnapDir = true ∧
      c1run.entryAfter = Entry.absent := by
  decide

/-- Claim C4 (evaluation at the failing input): with one prior snapshot and a
broken `latest` symlink, `_get_file_stat` reports `exists = islink = True`,
so the run takes the clone branch and aborts there (exit 2, no anomaly log,
no fresh directory, no pointer recreation) instead of the claimed
broken-pointer recovery path, which is unreachable. -/
theorem C4_broken_link_takes_clone_branch :
    (get_file_stat false (Entry.symlink "T" false)).exst = true ∧
    (get_file_stat false (Entry.symlink "T" false)).islink = true ∧
    c4run.exitCode = some 2 ∧ c4run.loggedAnomaly = false ∧ c4run.ranSync = false ∧
      c4run.createdSnapDir = false ∧ c4run.entryAfter = Entry.symlink "T" false ∧
      c4run.ranRetention = false := by
  decide

/-- Claim C3 counterexample: when the destination directory does not exist
yet and the capacity check fails, the abort happens after
`_create_dest_directory` has already created the destination directory —
a mutation of the destination filesystem — so the claim that no mutation has
occurred at the moment of the abort is false. -/
theorem C3_counterexample :
    c3run.aborted = some 2 ∧ c3run.createdDestDir = true ∧ c3run.snap = none := by
  decide

/-- Claim C3 (amended): a failing capacity check aborts the run before
`_take_snapshot` runs, so no snapshot directory is created, no sync runs and
no deletion happens; the only possible prior mutation is the creation of the
destination directory itself when it was absent. -/
theorem C3_capacity_abort_before_snapshot (destExists : Bool) (st : Stat)
    (min_inodes min_space : Nat) (remote : Bool) (snapshots : List Snap)
    (entry : Entry) (backupDst : String) (cloneOk : Bool) (status : Int)
    (now : DateTime) (cfg : SmartCfg) (c : Nat)
    (h : (check_freespace st min_inodes min_space).1 = some c) :
    runModel destExists st min_inodes min_space remote snapshots entry backupDst
        cloneOk status now cfg =
      { createdDestDir := !destExists, aborted := some c, snap := none } := by
  unfold runModel
  rw [h]

/-- Witness for C3: the amended statement applied at the concrete
inode-shortfall input. -/
theorem C3_witness :
    (check_freespace c3stat 100000 1024).1 = some 2 ∧
      runModel false c3stat 100000 1024 false [] .absent "B" true 0 now0 cfg0 =
        { createdDestDir := !false, aborted := some 2, snap := none } :=
  ⟨by decide,
    C3_capacity_abort_before_snapshot false c3stat 100000 1024 false [] .absent "B"
      true 0 now0 cfg0 2 (by decide)⟩

/-- Claim C10: on a local destination `_get_file_stat` reports a non-symlink
`latest` entry — a regular directory or file alike — exactly as it reports a
missing one (the whole dictionary coincides, in particular `exists = False`
and `target = None`); only a symlink can be reported as existing; and
`_take_snapshot`'s three-way branching therefore selects the same branch on
the two states — the anomaly branch (with the missing-pointer diagnosis
logged) when prior snapshots exist, the empty-destination branch otherwise.
(The later steps of the selected branch do distinguish the states: with an
entry still present, recreating the pointer raises `FileExistsError`, which
the model carries faithfully and this theorem does not equate.) -/
theorem C10_nonlink_reported_as_missing (snapshots : List Snap) (backupDst : String)
    (cloneOk : Bool) (status : Int) (now : DateTime) (cfg : SmartCfg) :
    (∀ isDir : Bool,
      get_file_stat false (Entry.nonlink isDir) = get_file_stat false Entry.absent ∧
      (get_file_stat false (Entry.nonlink isDir)).exst = false ∧
      (get_file_stat false (Entry.nonlink isDir)).target = none) ∧
    (∀ e : Entry, (get_file_stat false e).exst = true →
      ∃ t te, e = Entry.symlink t te) ∧
    (∀ isDir : Bool,
      snapBranch snapshots.length (get_file_stat false (Entry.nonlink isDir)) cloneOk
        = snapBranch snapshots.length (get_file_stat false Entry.absent) cloneOk) ∧
    (0 < snapshots.length → ∀ isDir : Bool,
      snapBranch snapshots.length (get_file_stat false (Entry.nonlink isDir)) cloneOk
          = SnapBranch.anomaly ∧
        (take_snapshot false snapshots (Entry.nonlink isDir) backupDst cloneOk
            status now cfg).loggedAnomaly = true) ∧
    (snapshots.length = 0 → ∀ isDir : Bool,
      snapBranch snapshots.length (get_file_stat false (Entry.nonlink isDir)) cloneOk
        = SnapBranch.fresh) := by
  refine ⟨fun isDir => ⟨rfl, rfl, rfl⟩, ?_, fun isDir => rfl, ?_, ?_⟩
  · intro e he
    cases e with
    | absent => simp [get_file_stat] at he
    | nonlink isDir => simp [get_file_stat] at he
    | symlink t te => exact ⟨t, te, rfl⟩
  · intro hn isDir
    constructor
    · rw [snapBranch_not_exists rfl, if_pos hn]
    · unfold take_snapshot
      rw [snapBranch_not_exists rfl, if_pos hn]
      rfl
  · intro hn isDir
    rw [snapBranch_not_exists rfl, if_neg (by omega)]

/-- Claim C2: for every snapshot list, configuration and run date, the
snapshot with the strictly greatest timestamp is in the keep list (when at
least two snapshots exist, so the keep list is built at all) and its path is
never in the deletion list. -/
theorem C2_latest_never_deleted (snapshots : List Snap) (now : DateTime)
    (cfg : SmartCfg) (m : Snap) (hm : m ∈ snapshots)
    (hmax : ∀ q ∈ snapshots, q ≠ m → dtSec q.1 < dtSec m.1) :
    m.2 ∉ smart_remove snapshots now cfg ∧
      (1 < snapshots.length → m.2 ∈ keepList (sortSnaps snapshots) now cfg) := by
  have hlast : (sortSnaps snapshots).getLast? = some m := sortSnaps_getLast?_eq hm hmax
  have hkeep : m.2 ∈ keepList (sortSnaps snapshots) now cfg := by
    unfold keepList
    rw [hlast]
    simp
  exact ⟨not_mem_smart_remove_of_keep hkeep, fun _ => hkeep⟩

/-- Witness for C2 at the concrete two-snapshot input. -/
theorem C2_witness :
    ((⟨2026, 10, 12, 8, 0, 0⟩, "s2") : Snap) ∈ snaps0 ∧
    (∀ q ∈ snaps0, q ≠ ((⟨2026, 10, 12, 8, 0, 0⟩, "s2") : Snap) →
      dtSec q.1 < dtSec (⟨2026, 10, 12, 8, 0, 0⟩ : DateTime)) ∧
    ("s2" ∉ smart_remove snaps0 now0 cfg0 ∧
      (1 < snaps0.length → "s2" ∈ keepList (sortSnaps snaps0) now0 cfg0)) :=
  ⟨by decide, by decide,
    C2_latest_never_deleted snaps0 now0 cfg0 ((⟨2026, 10, 12, 8, 0, 0⟩, "s2") : Snap)
      (by decide) (by decide)⟩

/-- Claim C5: a nonzero sync status never aborts the run — whenever the sync
step ran, the run completes, retention runs, and every observable apart from
the logged status equals the zero-status run. -/
theorem C5_sync_failure_nonfatal (remote : Bool) (snapshots : List Snap)
    (entry : Entry) (backupDst : String) (cloneOk : Bool) (status : Int)
    (now : DateTime) (cfg : SmartCfg) (hs : status ≠ 0)
    (hr : (take_snapshot remote snapshots entry backupDst cloneOk status now
      cfg).ranSync = true) :
    C5Concl remote snapshots entry backupDst cloneOk status now cfg := by
  unfold C5Concl
  unfold take_snapshot at hr ⊢
  cases hb : snapBranch snapshots.length (get_file_stat remote entry) cloneOk
  case cloneFail | typeErr => simp_all
  case anomaly => simp_all [anomalyFinish]
  case clone =>
    have hne := clone_entry_not_local_dir hb
    simp_all [afterSync, hne]
    cases remote with
    | true => exact Or.inl rfl
    | false => exact Or.inr (hne rfl)
  case fresh =>
    cases remote with
    | true => simp_all [afterSync]
    | false =>
      by_cases hdir : entry = Entry.nonlink true
      · simp_all [hdir]
      · simp_all [afterSync, hdir]

/-- Witness for C5: status 23 (partial transfer) at a concrete cloning run. -/
theorem C5_witness :
    ((23 : Int) ≠ 0) ∧
    (take_snapshot false snaps0 (Entry.symlink "s1" true) "B" true 23 now0
      cfg0).ranSync = true ∧
    C5Concl false snaps0 (Entry.symlink "s1" true) "B" true 23 now0 cfg0 :=
  ⟨by decide, by decide,
    C5_sync_failure_nonfatal false snaps0 (Entry.symlink "s1" true) "B" true 23
      now0 cfg0 (by decide) (by decide)⟩

/-- Claim C6: the capacity check aborts with status 2 exactly when the
filesystem reports nonzero total inodes with free inodes below the minimum,
or the free space in megabytes is below the minimum; a zero total-inode
report disables the inode check (the `_check_inodes` flag) instead of
counting as zero free inodes. -/
theorem C6_capacity_abort_iff (st : Stat) (min_inodes min_space : Nat) :
    ((check_freespace st min_inodes min_space).1 = some 2 ↔
      (st.files ≠ 0 ∧ st.ffree < min_inodes) ∨
        st.bavail * st.bsize < min_space * 1048576) ∧
    ((check_freespace st min_inodes min_space).2 = false ↔ st.files = 0) := by
  have hval : (mkRat (st.bavail * st.bsize) 1048576 < mkRat min_space 1) ↔
      st.bavail * st.bsize < min_space * 1048576 := by
    rw [Rat.mkRat_eq_div, Rat.mkRat_eq_div]
    push_cast
    rw [div_one, div_lt_iff₀ (by norm_num : (0 : ℚ) < 1048576)]
    exact_mod_cast Iff.rfl
  unfold check_freespace
  split_ifs with h1 h2 h3 h4 <;> simp_all

/-- Witness for C6: the space shortfall branch on an inode-less filesystem. -/
theorem C6_witness :
    (check_freespace ⟨0, 0, 100, 1024, 100⟩ 100000 1024).1 = some 2 :=
  (C6_capacity_abort_iff ⟨0, 0, 100, 1024, 100⟩ 100000 1024).1.mpr
    (Or.inr (by decide))

/-- Claim C9: `_smart_remove` receives the snapshot list discovered before
the new directory was created, so a fresh directory name absent from that
list is never deleted, and a singleton pre-run list deletes nothing. -/
theorem C9_retention_uses_prior_set (remote : Bool) (snapshots : List Snap)
    (entry : Entry) (backupDst : String) (cloneOk : Bool) (status : Int)
    (now : DateTime) (cfg : SmartCfg)
    (hb : backupDst ∉ snapshots.map Prod.snd) :
    C9Concl remote snapshots entry backupDst cloneOk status now cfg := by
  unfold C9Concl take_snapshot
  cases hbr : snapBranch snapshots.length (get_file_stat remote entry) cloneOk
  case cloneFail | typeErr =>
    dsimp only
    exact ⟨fun h => absurd h (by simp), by simp, fun _ => rfl⟩
  case anomaly =>
    dsimp only
    exact ⟨fun h => absurd h (by simp [anomalyFinish]), by simp [anomalyFinish],
      fun _ => by simp [anomalyFinish]⟩
  case clone =>
    have hne := clone_entry_not_local_dir hbr
    dsimp only
    refine ⟨fun _ => ?_, fun hmem => hb ?_, fun h1 => ?_⟩
    · simp [afterSync, hne]
    · have hmem2 : backupDst ∈ smart_remove snapshots now cfg := by
        simpa [afterSync, hne] using hmem
      exact smart_remove_subset snapshots now cfg backupDst hmem2
    · have h0 := smart_remove_of_short snapshots now cfg (by omega)
      simp [afterSync, hne, h0]
  case fresh =>
    cases remote with
    | true =>
      dsimp only
      refine ⟨fun _ => ?_, fun hmem => hb ?_, fun h1 => ?_⟩
      · simp [afterSync]
      · have hmem2 : backupDst ∈ smart_remove snapshots now cfg := by
          simpa [afterSync] using hmem
        exact smart_remove_subset snapshots now cfg backupDst hmem2
      · have h0 := smart_remove_of_short snapshots now cfg (by omega)
        simp [afterSync, h0]
    | false =>
      by_cases hdir : entry = Entry.nonlink true
      · subst hdir
        simp
      · dsimp only
        refine ⟨fun _ => ?_, fun hmem => hb ?_, fun h1 => ?_⟩
        · simp [afterSync, hdir]
        · have hmem2 : backupDst ∈ smart_remove snapshots now cfg := by
            simpa [afterSync, hdir] using hmem
          exact smart_remove_subset snapshots now cfg backupDst hmem2
        · have h0 := smart_remove_of_short snapshots now cfg (by omega)
          simp [afterSync, hdir, h0]

/-- Witness for C9 at a concrete cloning run with a fresh directory name. -/
theorem C9_witness :
    "B" ∉ snaps0.map Prod.snd ∧
    C9Concl false snaps0 (Entry.symlink "s1" true) "B" true 0 now0 cfg0 :=
  ⟨by decide,
    C9_retention_uses_prior_set false snaps0 (Entry.symlink "s1" true) "B" true 0
      now0 cfg0 (by decide)⟩

/-- Claim C7 counterexample: with the default daily setting the weekly
anchor is shifted one whole week back (the daily loop mutates `today`), so
on Monday 2026-10-12 the code's single weekly bucket is
[2026-10-04, 2026-10-12) and keeps the 2026-10-11 snapshot, while the
claimed bucket [2026-10-11, 2026-10-19) keeps the 2026-10-12 snapshot. -/
theorem C7_counterexample :
    weeklyPart snaps0 now0 cfg7 = ["s1"] ∧
    claimedWeeklyPart snaps0 now0 cfg7 = ["s2"] ∧
    weeklyPart snaps0 now0 cfg7 ≠ claimedWeeklyPart snaps0 now0 cfg7 := by
  decide

/-- Claim C7 (amended): when `keepOneperWeek > 0` the weekly rule examines
exactly `keepOneperWeek` 8-day windows walked back 7 days at a time; the
first window starts at the most recent Sunday strictly before today minus
`keepOneperDay` days (the daily loop leaves its cursor there), and each
window keeps the snapshot with the greatest timestamp inside it, empty
windows contributing nothing. -/
theorem C7_weekly_amended (snapshots : List Snap) (now : DateTime) (cfg : SmartCfg)
    (hk : 0 < cfg.keepOneperWeek) :
    WeeklyAmended snapshots now cfg ∧ KeepLastSpec snapshots := by
  refine ⟨⟨⟨?_, ?_, ?_⟩, ?_⟩, keepLastSpec_holds snapshots⟩
  · unfold weeklyAnchor weekdayOf
    omega
  · unfold weeklyAnchor weekdayOf
    omega
  · intro w hw hlt
    unfold weeklyAnchor weekdayOf at *
    omega
  · unfold weeklyPart
    rw [if_pos hk]
    exact weeklyLoop_eq snapshots cfg.keepOneperWeek.toNat (weeklyAnchor now cfg)

/-- Witness for C7: the amended weekly rule at the concrete Monday run. -/
theorem C7_witness :
    0 < cfg7.keepOneperWeek ∧
      (WeeklyAmended snaps0 now0 cfg7 ∧ KeepLastSpec snaps0) :=
  ⟨by decide, C7_weekly_amended snaps0 now0 cfg7 (by decide)⟩

/-- Claim C8: `inc_month` and `dec_month` move to the first day of the
following and preceding calendar month, rolling the year across the
December/January boundary (successor and predecessor on month indices), and
consequently the monthly retention rule examines exactly the last
`keepOneperMonth` true calendar months and keeps from each the latest
snapshot whose valid timestamp lies inside that month. -/
theorem C8_month_arithmetic (snapshots : List Snap) (now : DateTime) (cfg : SmartCfg)
    (hm1 : 1 ≤ now.m) (hm2 : now.m ≤ 12)
    (hrange : cfg.keepOneperMonth.toNat + 12 ≤ monthIdx now.y now.m) :
    IncDecSpec ∧ MonthlyAmended snapshots now cfg ∧ KeepLastSpec snapshots := by
  refine ⟨⟨?_, ?_⟩, ⟨?_, ?_⟩, keepLastSpec_holds snapshots⟩
  · intro t ht1 ht2
    refine ⟨?_, ?_⟩
    · by_cases hm : t.m = 12
      · simp [inc_month, hm]
      · have h2 : ¬ 12 < t.m + 1 := by omega
        simp [inc_month, hm, h2]
    · unfold inc_month monthIdx
      split_ifs with h <;> dsimp only <;> omega
  · intro t ht1 ht2 hy
    refine ⟨?_, ?_⟩
    · by_cases hm : t.m = 1
      · simp [dec_month, hm]
      · have h2 : ¬ t.m - 1 < 1 := by omega
        simp [dec_month, hm, h2]
    · unfold dec_month monthIdx
      split_ifs with h <;> dsimp only <;> omega
  · unfold monthlyPart
    by_cases hkm : 0 < cfg.keepOneperMonth
    · rw [if_pos hkm]
      rw [show (⟨now.y, now.m, 1, 0, 0, 0⟩ : DateTime) =
          monthStartDT (monthIdx now.y now.m) from
        (monthStartDT_monthIdx now.y now.m hm1 hm2).symm]
      rw [inc_month_monthStart]
      exact monthlyLoop_eq snapshots cfg.keepOneperMonth.toNat
        (monthIdx now.y now.m) (by omega)
    · rw [if_neg hkm]
      have h0 : cfg.keepOneperMonth.toNat = 0 := by omega
      rw [h0]
      simp
  · intro i hi s hs hv
    exact mem_month_iff s.1 hv (monthIdx now.y now.m - i) (by omega)

/-- Witness for C8: two monthly buckets straddling December 2025 and
January 2026. -/
theorem C8_witness :
    1 ≤ now8.m ∧ now8.m ≤ 12 ∧
      cfg8.keepOneperMonth.toNat + 12 ≤ monthIdx now8.y now8.m ∧
      (IncDecSpec ∧ MonthlyAmended snaps8 now8 cfg8 ∧ KeepLastSpec snaps8) :=
  ⟨by decide, by decide, by decide,
    C8_month_arithmetic snaps8 now8 cfg8 (by decide) (by decide) (by decide)⟩
